import Mathlib

/-!
Shallow embedding of the retrieval subsystem of the `galleon/lisa`
document-question-answering server.

The embedded code:
  * `MemStorage` (src/server/services/openai.ts): the in-memory document,
    chunk and chat-message stores, their CRUD operations, cosine similarity
    and owner-scoped vector search.
  * `generateChunkEmbeddings` (src/server/services/documentProcessor.ts):
    per-chunk embedding with per-chunk failure containment.
  * the upload handler and the chat send handler (src/server/routes.ts):
    the ingestion pipeline state machine and the streaming query-answering
    orchestrator.

Modelling conventions:
  * A JavaScript `Map<number, T>` is modelled as a `List T` in insertion
    order, the record's `id` being the key (JS `Map` iterates in insertion
    order; `set` on an existing key keeps its position, `set` on a fresh
    key appends).  `jsSet` / deletion-by-filter below implement exactly
    that.
  * JS number arithmetic on embeddings is idealised as exact real
    arithmetic (`ℝ`); `Math.sqrt` becomes `Real.sqrt`.
  * `new Date()` timestamps are modelled by a logical clock `time : Nat`
    on the store, ticked on every record creation.
  * JS string truthiness matters: `if (userId)` and `if (status)` are
    false for the empty string as well as for `undefined`; every such
    guard is modelled as a match that treats `some ""` like `none`.
  * `Array.prototype.sort(cmp)` with a consistent comparator is a stable
    sort (ES2019); it is modelled by `List.mergeSort`.
  * External collaborators (extractor+chunker, embedder, generator) are
    parameters: an `Except`-valued function or an outcome value, so a
    thrown JS exception is an `.error` result.
-/

namespace Lisa

/-- Document record (table `documents` in src/shared/schema.ts). -/
structure Document where
  id : Nat
  name : String
  originalName : String
  mimeType : String
  size : Nat
  content : String
  chunkCount : Nat
  status : String
  progress : Nat
  userId : Option String
  uploadedAt : Nat
  deriving Repr, DecidableEq

/-- Chunk record (table `chunks`): text plus embedding vector.  The JSONB
`metadata` payload is opaque to the store, modelled as an optional string. -/
structure Chunk where
  id : Nat
  documentId : Nat
  content : String
  embedding : List ℝ
  metadata : Option String
  createdAt : Nat

/-- A source citation as built by the chat send handler
(`{documentId, content, similarity, metadata}`). -/
structure Source where
  documentId : Nat
  content : String
  similarity : ℤ
  metadata : Option String

/-- Chat message record (table `chat_messages`). -/
structure ChatMessage where
  id : Nat
  content : String
  role : String
  sources : Option (List Source)
  userId : Option String
  createdAt : Nat

/-- Insert payload for `createDocument` (`InsertDocument`): fields with
schema defaults arrive possibly absent and are defaulted with `??`. -/
structure InsertDocument where
  name : String
  originalName : String
  mimeType : String
  size : Nat
  content : String
  chunkCount : Option Nat
  status : Option String
  progress : Option Nat
  userId : Option String

/-- Insert payload for `createChunk` (`InsertChunk`). -/
structure InsertChunk where
  documentId : Nat
  content : String
  embedding : Option (List ℝ)
  metadata : Option String

/-- Insert payload for `createChatMessage` (`InsertChatMessage`). -/
structure InsertChatMessage where
  content : String
  role : String
  sources : Option (List Source)
  userId : Option String

/-- The `MemStorage` state: three JS `Map`s (modelled as insertion-ordered
lists keyed by `id`), the three id counters, and the logical clock standing
in for `new Date()`. -/
structure MemStorage where
  documents : List Document
  chunks : List Chunk
  chatMessages : List ChatMessage
  currentDocumentId : Nat
  currentChunkId : Nat
  currentMessageId : Nat
  time : Nat

/-- The state built by the `MemStorage` constructor: empty maps, all three
id counters at 1. -/
def MemStorage.init : MemStorage :=
  { documents := [], chunks := [], chatMessages := [],
    currentDocumentId := 1, currentChunkId := 1, currentMessageId := 1,
    time := 0 }

/-- JS `Map.set(k, v)` on an insertion-ordered list: replace in place when
the key is present, append otherwise. -/
def jsSet (idOf : α → Nat) (m : List α) (k : Nat) (v : α) : List α :=
  if m.any (fun x => idOf x = k) then m.map (fun x => if idOf x = k then v else x)
  else m ++ [v]

/-- MemStorage.createDocument: assign the next id, default the optional
fields (`?? 0`, `?? "processing"`, `?? null`), stamp `uploadedAt`, insert. -/
def MemStorage.createDocument (st : MemStorage) (insertDocument : InsertDocument) :
    Document × MemStorage :=
  let id := st.currentDocumentId
  let document : Document :=
    { id := id
      name := insertDocument.name
      originalName := insertDocument.originalName
      mimeType := insertDocument.mimeType
      size := insertDocument.size
      content := insertDocument.content
      chunkCount := insertDocument.chunkCount.getD 0
      progress := insertDocument.progress.getD 0
      status := insertDocument.status.getD "processing"
      userId := insertDocument.userId
      uploadedAt := st.time }
  (document,
    { st with documents := jsSet (·.id) st.documents id document,
              currentDocumentId := st.currentDocumentId + 1,
              time := st.time + 1 })

/-- MemStorage.getDocument: `this.documents.get(id)`. -/
def MemStorage.getDocument (st : MemStorage) (id : Nat) : Option Document :=
  st.documents.find? (fun d => d.id = id)

/-- MemStorage.getAllDocuments: owner filter (skipped for a falsy
`userId`, i.e. absent or empty), then sort by `uploadedAt` descending
(stable). -/
def MemStorage.getAllDocuments (st : MemStorage) (userId : Option String := none) :
    List Document :=
  let docs := st.documents
  let docs : List Document :=
    match userId with
    | some u => if u ≠ "" then docs.filter (fun doc => doc.userId = some u) else docs
    | none => docs
  docs.mergeSort (fun a b => b.uploadedAt ≤ a.uploadedAt)

/-- MemStorage.getUserDocuments: delegates to `getAllDocuments`. -/
def MemStorage.getUserDocuments (st : MemStorage) (userId : String) : List Document :=
  st.getAllDocuments (some userId)

/-- MemStorage.updateDocumentProgress: look the document up; if present,
set `progress`, and `status` only when the `status` argument is truthy
(`if (status)` — false for `undefined` and for `""`). -/
def MemStorage.updateDocumentProgress (st : MemStorage) (id : Nat) (progress : Nat)
    (status : Option String := none) : Option Document × MemStorage :=
  match st.documents.find? (fun d => d.id = id) with
  | none => (none, st)
  | some document =>
    let updated : Document :=
      { document with
        progress := progress
        status := match status with
          | some s => if s ≠ "" then s else document.status
          | none => document.status }
    (some updated, { st with documents := jsSet (·.id) st.documents id updated })

/-- Partial document update payload (`Partial<Document>`) as used by the
ingestion pipeline: the identity fields (`id`, `uploadedAt`) are never
updated by any caller and are omitted. -/
structure DocumentUpdate where
  name : Option String := none
  originalName : Option String := none
  mimeType : Option String := none
  size : Option Nat := none
  content : Option String := none
  chunkCount : Option Nat := none
  status : Option String := none
  progress : Option Nat := none
  userId : Option (Option String) := none

/-- Object spread `{ ...document, ...updates }`. -/
def applyUpdate (document : Document) (u : DocumentUpdate) : Document :=
  { document with
    name := u.name.getD document.name
    originalName := u.originalName.getD document.originalName
    mimeType := u.mimeType.getD document.mimeType
    size := u.size.getD document.size
    content := u.content.getD document.content
    chunkCount := u.chunkCount.getD document.chunkCount
    status := u.status.getD document.status
    progress := u.progress.getD document.progress
    userId := u.userId.getD document.userId }

/-- MemStorage.updateDocument: merge a partial update into the stored
document. -/
def MemStorage.updateDocument (st : MemStorage) (id : Nat) (updates : DocumentUpdate) :
    Option Document × MemStorage :=
  match st.documents.find? (fun d => d.id = id) with
  | none => (none, st)
  | some document =>
    let updated := applyUpdate document updates
    (some updated, { st with documents := jsSet (·.id) st.documents id updated })

/-- MemStorage.deleteChunksByDocument: collect the ids of the chunks of
the given document, delete each, return whether there was at least one. -/
def MemStorage.deleteChunksByDocument (st : MemStorage) (documentId : Nat) :
    Bool × MemStorage :=
  let chunkIds := (st.chunks.filter (fun c => c.documentId = documentId)).map (·.id)
  (chunkIds.length > 0,
    { st with chunks := st.chunks.filter (fun c => c.id ∉ chunkIds) })

/-- MemStorage.deleteDocument: `this.documents.delete(id)`; when it
removed something, also delete the document's chunks, discarding that
call's own flag. -/
def MemStorage.deleteDocument (st : MemStorage) (id : Nat) : Bool × MemStorage :=
  let deleted := st.documents.any (fun d => d.id = id)
  let st1 := { st with documents := st.documents.filter (fun d => d.id ≠ id) }
  if deleted then
    (deleted, (st1.deleteChunksByDocument id).2)
  else
    (deleted, st1)

/-- MemStorage.createChunk: next id, default a missing embedding to `[]`
and missing metadata to `null`, stamp `createdAt`, insert. -/
def MemStorage.createChunk (st : MemStorage) (insertChunk : InsertChunk) :
    Chunk × MemStorage :=
  let id := st.currentChunkId
  let chunk : Chunk :=
    { id := id
      documentId := insertChunk.documentId
      content := insertChunk.content
      embedding := insertChunk.embedding.getD []
      metadata := insertChunk.metadata
      createdAt := st.time }
  (chunk,
    { st with chunks := jsSet (·.id) st.chunks id chunk,
              currentChunkId := st.currentChunkId + 1,
              time := st.time + 1 })

/-- MemStorage.getChunksByDocument. -/
def MemStorage.getChunksByDocument (st : MemStorage) (documentId : Nat) : List Chunk :=
  st.chunks.filter (fun chunk => chunk.documentId = documentId)

/-- MemStorage.getAllChunks. -/
def MemStorage.getAllChunks (st : MemStorage) : List Chunk :=
  st.chunks

/-- MemStorage.createChatMessage: next id, default missing `sources` and
`userId` to `null`, stamp `createdAt`, insert. -/
def MemStorage.createChatMessage (st : MemStorage) (insertMessage : InsertChatMessage) :
    ChatMessage × MemStorage :=
  let id := st.currentMessageId
  let message : ChatMessage :=
    { id := id
      content := insertMessage.content
      role := insertMessage.role
      sources := insertMessage.sources
      userId := insertMessage.userId
      createdAt := st.time }
  (message,
    { st with chatMessages := jsSet (·.id) st.chatMessages id message,
              currentMessageId := st.currentMessageId + 1,
              time := st.time + 1 })

/-- MemStorage.getAllChatMessages: owner filter (skipped for a falsy
`userId`), then sort by `createdAt` ascending (stable). -/
def MemStorage.getAllChatMessages (st : MemStorage) (userId : Option String := none) :
    List ChatMessage :=
  let messages := st.chatMessages
  let messages : List ChatMessage :=
    match userId with
    | some u => if u ≠ "" then messages.filter (fun msg => msg.userId = some u) else messages
    | none => messages
  messages.mergeSort (fun a b => a.createdAt ≤ b.createdAt)

/-- MemStorage.getUserChatMessages: delegates to `getAllChatMessages`. -/
def MemStorage.getUserChatMessages (st : MemStorage) (userId : String) : List ChatMessage :=
  st.getAllChatMessages (some userId)

/-- MemStorage.clearChatMessages: for a truthy owner filter, delete (by id)
exactly the messages whose `userId` equals the filter; otherwise
(`undefined` or `""`) clear the whole map.  Always returns `true`. -/
def MemStorage.clearChatMessages (st : MemStorage) (userId : Option String := none) :
    Bool × MemStorage :=
  match userId with
  | some u =>
    if u ≠ "" then
      let userMessages := st.chatMessages.filter (fun msg => msg.userId = some u)
      let ids := userMessages.map (·.id)
      (true, { st with chatMessages := st.chatMessages.filter (fun msg => msg.id ∉ ids) })
    else
      (true, { st with chatMessages := [] })
  | none => (true, { st with chatMessages := [] })

/-! ### Cosine similarity and owner-scoped vector search -/

/-- Sum of squares of a vector: the `normA` / `normB` accumulators of
`cosineSimilarity`'s loop (the squared Euclidean norm). -/
def sumSq (a : List ℝ) : ℝ :=
  (a.map (fun x => x * x)).sum

/-- The `dotProduct` accumulator of `cosineSimilarity`'s loop. -/
def dotList (a b : List ℝ) : ℝ :=
  (List.zipWith (· * ·) a b).sum

/-- Euclidean norm, for stating the spec's "zero norm" and
"dot(a,b)/(‖a‖*‖b‖)" clauses. -/
noncomputable def vecNorm (a : List ℝ) : ℝ :=
  Real.sqrt (sumSq a)

/-- MemStorage.cosineSimilarity: `0` on a length mismatch; one loop
accumulating `dotProduct`, `normA`, `normB`; `0` when either squared norm
is `0`; otherwise `dotProduct / (Math.sqrt(normA) * Math.sqrt(normB))`. -/
noncomputable def cosineSimilarity (a b : List ℝ) : ℝ :=
  if a.length ≠ b.length then 0
  else if sumSq a = 0 ∨ sumSq b = 0 then 0
  else dotList a b / (Real.sqrt (sumSq a) * Real.sqrt (sumSq b))

/-- A chunk spread together with its similarity score
(`{ ...chunk, similarity }`). -/
structure SimChunk where
  chunk : Chunk
  similarity : ℝ

/-- The comparator `(a, b) => b.similarity - a.similarity` passed to the
(stable) `Array.prototype.sort`: `a` may precede `b` iff
`a.similarity ≥ b.similarity`. -/
noncomputable def simDescLE (a b : SimChunk) : Bool :=
  decide (b.similarity ≤ a.similarity)

/-- The candidate list of `MemStorage.findSimilarChunks` before sorting:
keep the chunks with a non-empty embedding, intersect with the filtering
owner's document ids when the `userId` argument is truthy (`if (userId)` is
false for `undefined` and `""`), and annotate each with its cosine
similarity to the query. -/
noncomputable def similarityCandidates (st : MemStorage) (queryEmbedding : List ℝ)
    (userId : Option String) : List SimChunk :=
  let chunks := st.chunks.filter (fun chunk => chunk.embedding.length > 0)
  let chunks : List Chunk :=
    match userId with
    | some u =>
      if u ≠ "" then
        let userDocumentIds := (st.getUserDocuments u).map (·.id)
        chunks.filter (fun chunk => chunk.documentId ∈ userDocumentIds)
      else chunks
    | none => chunks
  chunks.map (fun chunk => { chunk := chunk,
                             similarity := cosineSimilarity queryEmbedding chunk.embedding })

/-- MemStorage.findSimilarChunks: candidates, sorted descending by
similarity (stable), first `limit` (default 5). -/
noncomputable def MemStorage.findSimilarChunks (st : MemStorage) (queryEmbedding : List ℝ)
    (userId : Option String := none) (limit : Nat := 5) : List SimChunk :=
  ((similarityCandidates st queryEmbedding userId).mergeSort simDescLE).take limit

/-! ### The ingestion pipeline (upload handler) -/

/-- A chunk as produced by the extractor+chunker collaborator
(`processDocument`): text plus metadata. -/
structure ProcessedChunk where
  content : String
  metadata : Option String

/-- The extractor+chunker collaborator's result (`ProcessedDocument`):
the full extracted text and the chunk list. -/
structure ProcessedDocument where
  content : String
  chunks : List ProcessedChunk

/-- A chunk with its embedding attached, as produced by
`generateChunkEmbeddings`. -/
structure ChunkWithEmbedding where
  content : String
  metadata : Option String
  embedding : List ℝ

/-- generateChunkEmbeddings (src/server/services/documentProcessor.ts):
call the embedder on each chunk's text; a per-chunk failure is caught and
the chunk is kept with an empty embedding vector, so the batch never
aborts. -/
def generateChunkEmbeddings (embedder : String → Except String (List ℝ))
    (chunks : List ProcessedChunk) : List ChunkWithEmbedding :=
  chunks.map (fun chunk =>
    match embedder chunk.content with
    | .ok embedding => { content := chunk.content, metadata := chunk.metadata,
                         embedding := embedding }
    | .error _ => { content := chunk.content, metadata := chunk.metadata,
                    embedding := [] })

/-- The uploaded file's request fields used by the upload handler. -/
structure UploadFile where
  originalname : String
  mimetype : String
  size : Nat

/-- Persisting the embedded chunks: the `for (const chunkData of
chunksWithEmbeddings) await storage.createChunk(...)` loop of the upload
handler. -/
def persistChunks (documentId : Nat) (chunksWithEmbeddings : List ChunkWithEmbedding)
    (st : MemStorage) : MemStorage :=
  chunksWithEmbeddings.foldl
    (fun s chunkData =>
      (s.createChunk { documentId := documentId, content := chunkData.content,
                       embedding := some chunkData.embedding,
                       metadata := chunkData.metadata }).2)
    st

/-- The successful tail of the upload pipeline (steps 2-4 of the handler's
ordered body, after extraction succeeded): progress 50 + embed (per-chunk
failures contained by `generateChunkEmbeddings`), progress 75 + persist
chunks, then the final update with content, chunk count, status
`completed`, progress 100. -/
def finishUpload (documentId : Nat) (processed : ProcessedDocument)
    (embedder : String → Except String (List ℝ)) (st : MemStorage) : MemStorage :=
  let st2 := (st.updateDocumentProgress documentId 50).2
  let chunksWithEmbeddings := generateChunkEmbeddings embedder processed.chunks
  let st3 := (st2.updateDocumentProgress documentId 75).2
  let st4 := persistChunks documentId chunksWithEmbeddings st3
  (st4.updateDocument documentId
    { content := some processed.content,
      chunkCount := some chunksWithEmbeddings.length,
      status := some "completed", progress := some 100 }).2

/-- The upload handler of src/server/routes.ts (POST /api/documents/upload):
create the document record (status `processing`, progress 0, owned by the
uploader), answer the request with it, then run the pipeline: progress 25 +
extract/chunk (the collaborator outcome is the `processed` argument; a
thrown extractor is `.error`), then the successful tail (`finishUpload`).
Any step throwing is caught at the top level and turns into
`updateDocumentProgress(id, 0, "error")`; in this model only the extractor
step can throw (the store operations and `generateChunkEmbeddings` are
total). -/
def processUpload (st : MemStorage) (file : UploadFile) (userId : String)
    (processed : Except String ProcessedDocument)
    (embedder : String → Except String (List ℝ)) : Document × MemStorage :=
  let create := st.createDocument
    { name := file.originalname, originalName := file.originalname,
      mimeType := file.mimetype, size := file.size, content := "",
      chunkCount := some 0, status := some "processing", progress := some 0,
      userId := some userId }
  let document := create.1
  let st1 := ((create.2).updateDocumentProgress document.id 25 (some "processing")).2
  match processed with
  | .error _ =>
    (document, (st1.updateDocumentProgress document.id 0 (some "error")).2)
  | .ok processed =>
    (document, finishUpload document.id processed embedder st1)

/-! ### The query-answering orchestrator (chat send handler) -/

/-- One framed server-sent event of the chat send handler, or the
non-stream responses that can replace the stream. -/
inductive SseEvent where
  | chunkEv (content : String)
  | sourcesEv (sources : List Source)
  | doneEv
  | errorEv (message : String)
  | badRequest (message : String)
  | serverError (message : String)

/-- Outcome of consuming the generator's stream: either it completes after
yielding `fragments`, or it throws after yielding `fragments`. -/
inductive StreamOutcome where
  | success (fragments : List String)
  | failure (fragments : List String) (err : String)

/-- The chat send handler of src/server/routes.ts (POST /api/chat/send).
Reject a falsy `content` before any side effect; persist the user's
message; embed the question (collaborator outcome `embed`; a throw is
caught by the outer handler as a 500 response); rank the user's chunks;
stream the generator (outcome `gen`): per fragment a `chunk` event while
accumulating, then on success the `sources` and `done` events and one
persisted assistant message, or on a mid-stream throw a single `error`
event and no assistant message (no retry). -/
noncomputable def sendChat (st : MemStorage) (userId : String) (content : String)
    (embed : Except String (List ℝ)) (gen : StreamOutcome) :
    List SseEvent × MemStorage :=
  if content = "" then
    ([.badRequest "Message content is required"], st)
  else
    let st1 := (st.createChatMessage
      { content := content, role := "user", sources := none,
        userId := some userId }).2
    match embed with
    | .error _ => ([.serverError "Failed to process message"], st1)
    | .ok queryEmbedding =>
      let similarChunks := st1.findSimilarChunks queryEmbedding (some userId) 5
      match gen with
      | .success fragments =>
        let fullResponse := fragments.foldl (· ++ ·) ""
        let sources := similarChunks.map (fun chunk =>
          { documentId := chunk.chunk.documentId
            content := chunk.chunk.content.take 200 ++ "..."
            similarity := round ((chunk.similarity * 100 : ℝ))
            metadata := chunk.chunk.metadata : Source })
        let st2 := (st1.createChatMessage
          { content := fullResponse, role := "assistant",
            sources := some sources, userId := some userId }).2
        (fragments.map .chunkEv ++ [.sourcesEv sources, .doneEv], st2)
      | .failure fragments _ =>
        (fragments.map .chunkEv ++ [.errorEv "Failed to generate response"], st1)

/-! ### Concrete stores used by counterexamples and witnesses, and the
store invariant -/

/-- The store used to refute C8 at the empty-string owner filter:
one message owned by `""`, one owned by `"bob"`. -/
def cexStoreC8 : MemStorage :=
  { documents := [], chunks := [],
    chatMessages :=
      [{ id := 1, content := "hello", role := "user", sources := none,
         userId := some "", createdAt := 0 },
       { id := 2, content := "hi", role := "user", sources := none,
         userId := some "bob", createdAt := 1 }],
    currentDocumentId := 1, currentChunkId := 1, currentMessageId := 3, time := 2 }

/-- The document and chunk used in the C1 store: the document is owned by
`"bob"`, the chunk belongs to it and has a non-empty embedding. -/
def cexChunkC1 : Chunk :=
  { id := 1, documentId := 1, content := "c", embedding := [1],
    metadata := none, createdAt := 1 }

/-- A store with one document owned by `"bob"` and its one searchable
chunk. -/
def cexStoreC1 : MemStorage :=
  { documents :=
      [{ id := 1, name := "d", originalName := "d", mimeType := "text/plain",
         size := 1, content := "x", chunkCount := 1, status := "completed",
         progress := 100, userId := some "bob", uploadedAt := 0 }],
    chunks := [cexChunkC1],
    chatMessages := [],
    currentDocumentId := 2, currentChunkId := 2, currentMessageId := 1, time := 2 }

/-- The chunk used by the C2 counterexample: a non-empty two-dimensional
embedding, so it survives the empty-embedding filter even against a
one-dimensional query. -/
def cexChunkC2 : Chunk :=
  { id := 1, documentId := 1, content := "c", embedding := [1, 2],
    metadata := none, createdAt := 0 }

/-- A store holding only the dimension-mismatched chunk. -/
def cexStoreC2 : MemStorage :=
  { documents := [], chunks := [cexChunkC2], chatMessages := [],
    currentDocumentId := 1, currentChunkId := 2, currentMessageId := 1, time := 1 }

/-- Invariant of a `MemStorage`: in each of the three maps every record's
id is below that map's counter, and the record ids are pairwise distinct.
It holds for the constructor state and is preserved by every operation. -/
def StoreInv (st : MemStorage) : Prop :=
  (∀ d ∈ st.documents, d.id < st.currentDocumentId) ∧
  (st.documents.map (·.id)).Nodup ∧
  (∀ c ∈ st.chunks, c.id < st.currentChunkId) ∧
  (st.chunks.map (·.id)).Nodup ∧
  (∀ m ∈ st.chatMessages, m.id < st.currentMessageId) ∧
  (st.chatMessages.map (·.id)).Nodup

/-! ## Helper lemmas -/

lemma sumSq_nonneg (a : List ℝ) : 0 ≤ sumSq a := by
  apply List.sum_nonneg
  intro x hx
  obtain ⟨y, -, rfl⟩ := List.mem_map.1 hx
  exact mul_self_nonneg y

lemma sumSq_eq_zero_iff (a : List ℝ) : sumSq a = 0 ↔ ∀ x ∈ a, x = 0 := by
  induction a with
  | nil => simp [sumSq]
  | cons y l ih =>
    have h2 : 0 ≤ sumSq l := sumSq_nonneg l
    have h1 : 0 ≤ y * y := mul_self_nonneg y
    simp only [sumSq, List.map_cons, List.sum_cons] at *
    constructor
    · intro h
      have hy : y * y = 0 := by linarith
      have hl : (l.map fun x => x * x).sum = 0 := by linarith
      intro x hx
      rcases List.mem_cons.1 hx with rfl | hx
      · exact mul_self_eq_zero.1 hy
      · exact ih.1 hl x hx
    · intro h
      have hy : y = 0 := h y (List.mem_cons_self _ _)
      have hl : (l.map fun x => x * x).sum = 0 := ih.2 fun x hx => h x (List.mem_cons_of_mem _ hx)
      simp [hy, hl]

lemma vecNorm_eq_zero_iff (a : List ℝ) : vecNorm a = 0 ↔ sumSq a = 0 :=
  Real.sqrt_eq_zero (sumSq_nonneg a)

lemma dotList_comm (a b : List ℝ) : dotList a b = dotList b a := by
  unfold dotList
  rw [List.zipWith_comm_of_comm _ mul_comm]

lemma dotList_self (v : List ℝ) : dotList v v = sumSq v := by
  simp [dotList, sumSq, List.zipWith_same]

lemma sum_map_negate (l : List ℝ) (f : ℝ → ℝ) :
    (l.map fun x => -(f x)).sum = -(l.map f).sum := by
  induction l with
  | nil => simp
  | cons y l ih => simp [ih]; ring

lemma dotList_map_neg (v : List ℝ) : dotList v (v.map fun x => -x) = -sumSq v := by
  unfold dotList sumSq
  rw [List.zipWith_map_right, List.zipWith_same]
  have h : (fun a : ℝ => a * -a) = fun a : ℝ => -(a * a) := by
    funext a; ring
  rw [h, sum_map_negate]

lemma sumSq_map_neg (v : List ℝ) : sumSq (v.map fun x => -x) = sumSq v := by
  unfold sumSq
  rw [List.map_map]
  apply congrArg List.sum
  apply List.map_congr_left
  intro a _
  show (-a) * (-a) = a * a
  ring

/-! ## Claims -/

/-- C3.  The cosine-similarity function returns 0 on a length mismatch and
on a zero-norm input; otherwise it is dot(a,b)/(‖a‖·‖b‖); it is symmetric;
and for every vector with a non-zero component, similarity(v, v) = 1 and
similarity(v, -v) = -1 (exact, the spec's ≈ idealised to exact real
arithmetic). -/
theorem cosineSimilarity_spec :
    (∀ a b : List ℝ, a.length ≠ b.length → cosineSimilarity a b = 0) ∧
    (∀ a b : List ℝ, vecNorm a = 0 ∨ vecNorm b = 0 → cosineSimilarity a b = 0) ∧
    (∀ a b : List ℝ, a.length = b.length → vecNorm a ≠ 0 → vecNorm b ≠ 0 →
      cosineSimilarity a b = dotList a b / (vecNorm a * vecNorm b)) ∧
    (∀ a b : List ℝ, cosineSimilarity a b = cosineSimilarity b a) ∧
    (∀ v : List ℝ, (∃ x ∈ v, x ≠ 0) →
      cosineSimilarity v v = 1 ∧ cosineSimilarity v (v.map fun x => -x) = -1) := by
  have hzero : ∀ a b : List ℝ, vecNorm a = 0 ∨ vecNorm b = 0 → cosineSimilarity a b = 0 := by
    intro a b h
    have h' : sumSq a = 0 ∨ sumSq b = 0 := by
      rcases h with h | h
      · exact Or.inl ((vecNorm_eq_zero_iff a).1 h)
      · exact Or.inr ((vecNorm_eq_zero_iff b).1 h)
    unfold cosineSimilarity
    by_cases hlen : a.length ≠ b.length
    · rw [if_pos hlen]
    · rw [if_neg hlen, if_pos h']
  have hnonzero : ∀ v : List ℝ, (∃ x ∈ v, x ≠ 0) → sumSq v ≠ 0 := by
    intro v ⟨x, hx, hx0⟩ h
    exact hx0 ((sumSq_eq_zero_iff v).1 h x hx)
  refine ⟨?_, hzero, ?_, ?_, ?_⟩
  · intro a b h
    unfold cosineSimilarity
    rw [if_pos h]
  · intro a b hlen ha hb
    have ha' : ¬ sumSq a = 0 := fun h => ha ((vecNorm_eq_zero_iff a).2 h)
    have hb' : ¬ sumSq b = 0 := fun h => hb ((vecNorm_eq_zero_iff b).2 h)
    have h1 : ¬ (a.length ≠ b.length) := by simp [hlen]
    have hz : ¬ (sumSq a = 0 ∨ sumSq b = 0) := by
      rintro (h | h)
      · exact ha' h
      · exact hb' h
    unfold cosineSimilarity
    rw [if_neg h1, if_neg hz]
    rfl
  · intro a b
    unfold cosineSimilarity
    by_cases hlen : a.length = b.length
    · have h1 : ¬ (a.length ≠ b.length) := by simp [hlen]
      have h2 : ¬ (b.length ≠ a.length) := by simp [hlen]
      rw [if_neg h1, if_neg h2]
      by_cases hz : sumSq a = 0 ∨ sumSq b = 0
      · rw [if_pos hz, if_pos (Or.symm hz)]
      · have hz' : ¬ (sumSq b = 0 ∨ sumSq a = 0) := fun h => hz (Or.symm h)
        rw [if_neg hz, if_neg hz', dotList_comm, mul_comm]
    · rw [if_pos hlen, if_pos (Ne.symm hlen)]
  · intro v hv
    have hS : sumSq v ≠ 0 := hnonzero v hv
    have hSpos : 0 ≤ sumSq v := sumSq_nonneg v
    constructor
    · unfold cosineSimilarity
      rw [if_neg (by simp), if_neg (by tauto), dotList_self,
        Real.mul_self_sqrt hSpos, div_self hS]
    · unfold cosineSimilarity
      rw [if_neg (by simp), if_neg (by simp [sumSq_map_neg, hS]),
        dotList_map_neg, sumSq_map_neg, Real.mul_self_sqrt hSpos,
        neg_div, div_self hS]

/-- Witness for C3: evaluating the theorem at the concrete vector `[1]`. -/
theorem cosineSimilarity_spec_witness :
    cosineSimilarity [(1 : ℝ)] [(1 : ℝ)] = 1 ∧
      cosineSimilarity [(1 : ℝ)] [(1 : ℝ), 0] = 0 :=
  ⟨(cosineSimilarity_spec.2.2.2.2 [1] ⟨1, by simp, one_ne_zero⟩).1,
    cosineSimilarity_spec.1 [1] [1, 0] (by simp)⟩

/-- C6.  deleteDocument returns false exactly when no document with the id
exists; on success every chunk of the document is removed, so
getChunksByDocument afterwards returns the empty sequence; and it succeeds
even when the document had zero chunks (the chunk-deletion flag is
discarded). -/
theorem deleteDocument_spec :
    (∀ st : MemStorage, ∀ id : Nat,
      ((st.deleteDocument id).1 = false ↔ ∀ d ∈ st.documents, d.id ≠ id)) ∧
    (∀ st : MemStorage, ∀ id : Nat, (st.deleteDocument id).1 = true →
      (st.deleteDocument id).2.getChunksByDocument id = []) ∧
    (∀ st : MemStorage, ∀ id : Nat, (∃ d ∈ st.documents, d.id = id) →
      st.getChunksByDocument id = [] → (st.deleteDocument id).1 = true) := by
  have hfst : ∀ (st : MemStorage) (id : Nat),
      (st.deleteDocument id).1 = st.documents.any (fun d => d.id = id) := by
    intro st id
    unfold MemStorage.deleteDocument
    dsimp only
    split <;> rfl
  refine ⟨?_, ?_, ?_⟩
  · intro st id
    rw [hfst]
    simp
  · intro st id h
    have hany : st.documents.any (fun d => d.id = id) = true := by rw [← hfst, h]
    unfold MemStorage.deleteDocument
    dsimp only
    rw [if_pos hany]
    unfold MemStorage.getChunksByDocument MemStorage.deleteChunksByDocument
    dsimp only
    rw [List.filter_eq_nil_iff]
    intro c hc
    simp only [List.mem_filter] at hc
    intro hdoc
    have hmem : c.id ∈ (st.chunks.filter (fun c => c.documentId = id)).map (·.id) :=
      List.mem_map.2 ⟨c, List.mem_filter.2 ⟨hc.1, by simpa using hdoc⟩, rfl⟩
    have := hc.2
    simp only [decide_eq_true_eq] at this
    exact this hmem
  · intro st id ⟨d, hd, hid⟩ _
    rw [hfst]
    exact List.any_eq_true.2 ⟨d, hd, by simpa using hid⟩

/-- Witness for C6 at a one-document, zero-chunk store: deleting succeeds
and leaves no chunks behind. -/
theorem deleteDocument_spec_witness :
    (((MemStorage.init.createDocument
        { name := "a", originalName := "a", mimeType := "text/plain", size := 1,
          content := "", chunkCount := none, status := none, progress := none,
          userId := some "alice" }).2).deleteDocument 1).1 = true :=
  deleteDocument_spec.2.2 _ 1
    ⟨{ id := 1, name := "a", originalName := "a", mimeType := "text/plain", size := 1,
       content := "", chunkCount := 0, status := "processing", progress := 0,
       userId := some "alice", uploadedAt := 0 }, by
        show _ ∈ jsSet (·.id) ([] : List Document) 1 _
        simp [jsSet, MemStorage.init], rfl⟩ rfl

/-- Counterexample to C8 as stated: with owners A = `""` and B = `"bob"`
both holding messages, `clearChatMessages(owner = "")` falls into the
falsy branch of `if (userId)` and clears the whole map, deleting B's
message too (the claim requires B's messages to remain). -/
theorem clearChatMessages_empty_owner_cex :
    ((cexStoreC8.clearChatMessages (some "")).2.chatMessages.filter
        (fun m => m.userId = some "bob")).length = 0 ∧
    (cexStoreC8.chatMessages.filter (fun m => m.userId = some "bob")).length = 1 ∧
    (cexStoreC8.clearChatMessages (some "")).1 = true := by
  refine ⟨?_, ?_, ?_⟩ <;> rfl

/-- C8 amended: for every NON-EMPTY owner A (the empty string is falsy in
JS, so `clearChatMessages("")` behaves like the unscoped call and clears
everything), clearing scoped to A deletes exactly A's messages, leaves
every other message (and the other two stores) unchanged, and reports
success; the unscoped call clears all messages. -/
theorem clearChatMessages_amended :
    (∀ st : MemStorage, ∀ u : String, u ≠ "" →
      (st.chatMessages.map (·.id)).Nodup →
      (st.clearChatMessages (some u)).2.chatMessages
          = st.chatMessages.filter (fun m => ¬ m.userId = some u) ∧
      (st.clearChatMessages (some u)).1 = true ∧
      (st.clearChatMessages (some u)).2.documents = st.documents ∧
      (st.clearChatMessages (some u)).2.chunks = st.chunks) ∧
    (∀ st : MemStorage,
      (st.clearChatMessages none).2.chatMessages = [] ∧
      (st.clearChatMessages none).1 = true) := by
  constructor
  · intro st u hu hnodup
    unfold MemStorage.clearChatMessages
    dsimp only
    rw [if_pos hu]
    refine ⟨?_, rfl, rfl, rfl⟩
    dsimp only
    apply List.filter_congr
    intro m hm
    have hiff : (m.id ∈ (st.chatMessages.filter (fun msg => msg.userId = some u)).map (·.id))
        ↔ m.userId = some u := by
      constructor
      · intro hin
        obtain ⟨m', hm', hid⟩ := List.mem_map.1 hin
        have hm'mem : m' ∈ st.chatMessages := (List.mem_filter.1 hm').1
        have hm'user : m'.userId = some u := by
          have := (List.mem_filter.1 hm').2
          simpa using this
        have : m' = m := List.inj_on_of_nodup_map hnodup hm'mem hm hid
        rw [← this]
        exact hm'user
      · intro huser
        exact List.mem_map.2 ⟨m, List.mem_filter.2 ⟨hm, by simpa using huser⟩, rfl⟩
    exact decide_eq_decide.2 (not_congr hiff)
  · intro st
    exact ⟨rfl, rfl⟩

/-- Witness for C8 at the concrete two-owner store: clearing scoped to
`"bob"` keeps exactly the non-bob message. -/
theorem clearChatMessages_amended_witness :
    (cexStoreC8.clearChatMessages (some "bob")).2.chatMessages
      = cexStoreC8.chatMessages.filter (fun m => ¬ m.userId = some "bob") :=
  (clearChatMessages_amended.1 cexStoreC8 "bob" (by decide) (by decide)).1

/-- C9.  updateDocumentProgress on an existing id rewrites exactly the
looked-up document: its progress is set, its status is set only when the
status argument is supplied (and truthy — `if (status)`), every other
field keeps its value, every other document and the other two stores are
untouched; on a missing id it returns `none` and changes nothing. -/
theorem updateDocumentProgress_spec :
    (∀ st : MemStorage, ∀ id : Nat, ∀ progress : Nat, ∀ status : Option String, ∀ d₀,
      st.getDocument id = some d₀ →
      (st.updateDocumentProgress id progress status).1 =
        some { d₀ with
               progress := progress
               status := match status with
                 | some s => if s ≠ "" then s else d₀.status
                 | none => d₀.status } ∧
      (st.updateDocumentProgress id progress status).2.documents =
        st.documents.map (fun d => if d.id = id then
          { d₀ with
            progress := progress
            status := match status with
              | some s => if s ≠ "" then s else d₀.status
              | none => d₀.status } else d) ∧
      (st.updateDocumentProgress id progress status).2.chunks = st.chunks ∧
      (st.updateDocumentProgress id progress status).2.chatMessages = st.chatMessages ∧
      (st.updateDocumentProgress id progress status).2.currentDocumentId = st.currentDocumentId ∧
      (st.updateDocumentProgress id progress status).2.currentChunkId = st.currentChunkId ∧
      (st.updateDocumentProgress id progress status).2.currentMessageId = st.currentMessageId ∧
      (st.updateDocumentProgress id progress status).2.time = st.time) ∧
    (∀ st : MemStorage, ∀ id : Nat, ∀ progress : Nat, ∀ status : Option String,
      (∀ d ∈ st.documents, d.id ≠ id) →
      st.updateDocumentProgress id progress status = (none, st)) := by
  constructor
  · intro st id progress status d₀ hfind
    have hfind' : st.documents.find? (fun d => d.id = id) = some d₀ := hfind
    have hmem : d₀ ∈ st.documents := List.mem_of_find?_eq_some hfind'
    have hid : d₀.id = id := by
      have := List.find?_some hfind'
      simpa using this
    have hany : st.documents.any (fun d => d.id = id) = true :=
      List.any_eq_true.2 ⟨d₀, hmem, by simpa using hid⟩
    unfold MemStorage.updateDocumentProgress
    rw [hfind']
    dsimp only
    unfold jsSet
    rw [if_pos hany]
    exact ⟨rfl, rfl, rfl, rfl, rfl, rfl, rfl, rfl⟩
  · intro st id progress status hnone
    have hfind' : st.documents.find? (fun d => d.id = id) = none :=
      List.find?_eq_none.2 (fun d hd => by simpa using hnone d hd)
    unfold MemStorage.updateDocumentProgress
    rw [hfind']

/-- Witness for C9 at a concrete one-document store: progress moves to 50,
the status argument is absent so status stays `"processing"`, and nothing
else changes. -/
theorem updateDocumentProgress_spec_witness :
    (((MemStorage.init.createDocument
        { name := "a", originalName := "a", mimeType := "text/plain", size := 1,
          content := "", chunkCount := none, status := none, progress := none,
          userId := some "alice" }).2).updateDocumentProgress 1 50 none).1 =
      some { id := 1, name := "a", originalName := "a", mimeType := "text/plain",
             size := 1, content := "", chunkCount := 0, status := "processing",
             progress := 50, userId := some "alice", uploadedAt := 0 } :=
  ((updateDocumentProgress_spec.1
    ((MemStorage.init.createDocument
        { name := "a", originalName := "a", mimeType := "text/plain", size := 1,
          content := "", chunkCount := none, status := none, progress := none,
          userId := some "alice" }).2) 1 50 none
    { id := 1, name := "a", originalName := "a", mimeType := "text/plain",
      size := 1, content := "", chunkCount := 0, status := "processing",
      progress := 0, userId := some "alice", uploadedAt := 0 } rfl).1)

/-! ### Similarity-search ranking and owner scoping -/

lemma simDescLE_iff (a b : SimChunk) :
    simDescLE a b = true ↔ b.similarity ≤ a.similarity := by
  simp [simDescLE]

lemma simDescLE_trans : ∀ a b c : SimChunk, simDescLE a b → simDescLE b c → simDescLE a c := by
  intro a b c hab hbc
  exact (simDescLE_iff a c).2 (le_trans ((simDescLE_iff b c).1 hbc) ((simDescLE_iff a b).1 hab))

lemma simDescLE_total : ∀ a b : SimChunk, simDescLE a b || simDescLE b a := by
  intro a b
  rcases le_total a.similarity b.similarity with h | h <;> simp [simDescLE, h]

lemma mem_similarityCandidates {st : MemStorage} {q : List ℝ} {userId : Option String}
    {sc : SimChunk} (h : sc ∈ similarityCandidates st q userId) :
    sc.chunk ∈ st.chunks ∧ sc.chunk.embedding.length > 0 ∧
      sc.similarity = cosineSimilarity q sc.chunk.embedding := by
  unfold similarityCandidates at h
  rcases userId with _ | u
  · obtain ⟨c, hc, rfl⟩ := List.mem_map.1 h
    have hc' := List.mem_filter.1 hc
    exact ⟨hc'.1, by simpa using hc'.2, rfl⟩
  · dsimp only at h
    by_cases hu : u ≠ ""
    · rw [if_pos hu] at h
      obtain ⟨c, hc, rfl⟩ := List.mem_map.1 h
      have hc1 := List.mem_filter.1 hc
      have hc2 := List.mem_filter.1 hc1.1
      exact ⟨hc2.1, by simpa using hc2.2, rfl⟩
    · rw [if_neg hu] at h
      obtain ⟨c, hc, rfl⟩ := List.mem_map.1 h
      have hc' := List.mem_filter.1 hc
      exact ⟨hc'.1, by simpa using hc'.2, rfl⟩

/-- C2 amended.  findSimilarChunks never returns a chunk with an EMPTY
embedding (the candidate filter excludes exactly those; a non-empty chunk
whose dimension differs from the query's is kept and merely scores
similarity 0 — see the counterexample refuting the claim's dimension
clause); every returned dimension-mismatched chunk carries similarity 0;
the result is sorted descending by similarity, ties keeping insertion
order (stability of the sort on the candidate list); its length is at most
`limit`; and the default limit is 5. -/
theorem findSimilarChunks_ranking :
    ∀ (st : MemStorage) (q : List ℝ) (userId : Option String) (limit : Nat),
      (∀ sc ∈ st.findSimilarChunks q userId limit, sc.chunk.embedding ≠ []) ∧
      (∀ sc ∈ st.findSimilarChunks q userId limit,
        sc.chunk.embedding.length ≠ q.length → sc.similarity = 0) ∧
      (st.findSimilarChunks q userId limit).Pairwise
        (fun a b => b.similarity ≤ a.similarity) ∧
      (∀ a b : SimChunk, List.Sublist [a, b] (similarityCandidates st q userId) →
        b.similarity ≤ a.similarity →
        List.Sublist [a, b] ((similarityCandidates st q userId).mergeSort simDescLE)) ∧
      (st.findSimilarChunks q userId limit).length ≤ limit ∧
      st.findSimilarChunks q userId = st.findSimilarChunks q userId 5 := by
  intro st q userId limit
  have hmem : ∀ sc ∈ st.findSimilarChunks q userId limit,
      sc ∈ similarityCandidates st q userId := by
    intro sc hsc
    exact List.mem_mergeSort.1 (List.take_subset _ _ hsc)
  refine ⟨?_, ?_, ?_, ?_, ?_, rfl⟩
  · intro sc hsc hemb
    have h3 := mem_similarityCandidates (hmem sc hsc)
    rw [hemb] at h3
    exact absurd h3.2.1 (by simp)
  · intro sc hsc hlen
    have h3 := mem_similarityCandidates (hmem sc hsc)
    rw [h3.2.2]
    unfold cosineSimilarity
    rw [if_pos (Ne.symm hlen)]
  · have hs := List.sorted_mergeSort simDescLE_trans simDescLE_total
      (similarityCandidates st q userId)
    have hs' := hs.sublist (List.take_sublist limit _)
    exact hs'.imp (fun h => (simDescLE_iff _ _).1 h)
  · intro a b hab hba
    exact List.pair_sublist_mergeSort simDescLE_trans simDescLE_total
      ((simDescLE_iff a b).2 hba) hab
  · exact List.length_take_le _ _

/-- Counterexample to C2 as stated: a chunk whose non-empty embedding has
dimension 2 IS returned by a search with a one-dimensional query
embedding — the filter only excludes empty embeddings, so the claim's "or
whose embedding dimension differs from the query embedding's dimension"
fails.  The returned list contains the chunk (id 1) whose embedding length
is 2, while the query's length is 1. -/
theorem findSimilarChunks_dimension_cex :
    (cexStoreC2.findSimilarChunks [(1 : ℝ)] none 5).map
        (fun sc => (sc.chunk.id, sc.chunk.embedding.length)) = [(1, 2)] ∧
    [(1 : ℝ)].length = 1 := by
  constructor
  · have hcand : similarityCandidates cexStoreC2 [(1 : ℝ)] none =
        [{ chunk := cexChunkC2,
           similarity := cosineSimilarity [(1 : ℝ)] cexChunkC2.embedding }] := rfl
    unfold MemStorage.findSimilarChunks
    rw [hcand, List.mergeSort_singleton]
    rfl
  · rfl

/-- Counterexample to C1 as stated: with the owner filter A = `""`
supplied, `if (userId)` is falsy, the owner intersection is skipped, and
the search returns the chunk of a document owned by B = `"bob"` ≠ A. -/
theorem findSimilarChunks_empty_filter_cex :
    (cexStoreC1.findSimilarChunks [(1 : ℝ)] (some "") 5).map
        (fun sc => sc.chunk.documentId) = [1] ∧
    cexStoreC1.documents.map (fun d => (d.id, d.userId)) = [(1, some "bob")] := by
  constructor
  · have hcand : similarityCandidates cexStoreC1 [(1 : ℝ)] (some "") =
        [{ chunk := cexChunkC1,
           similarity := cosineSimilarity [(1 : ℝ)] cexChunkC1.embedding }] := by
      unfold similarityCandidates
      dsimp only
      rw [if_neg (by simp)]
      rfl
    unfold MemStorage.findSimilarChunks
    rw [hcand, List.mergeSort_singleton]
    rfl
  · rfl

/-- C1 amended: for every NON-EMPTY owner filter A (the empty string is
falsy in JS, so `findSimilarChunks(_, "")` behaves like the unscoped
call), every returned chunk's parent document is owned by exactly A — so
no chunk of an owner B ≠ A and no chunk of a null-owner document is
returned — while the unscoped call's candidate set is all chunks with a
non-empty embedding, unfiltered by owner. -/
theorem findSimilarChunks_owner_scoping :
    (∀ (st : MemStorage) (q : List ℝ) (u : String) (limit : Nat),
      u ≠ "" → (st.documents.map (·.id)).Nodup →
      ∀ sc ∈ st.findSimilarChunks q (some u) limit,
        ∀ d ∈ st.documents, d.id = sc.chunk.documentId → d.userId = some u) ∧
    (∀ (st : MemStorage) (q : List ℝ),
      (similarityCandidates st q none).map (fun sc => sc.chunk)
        = st.chunks.filter (fun c => c.embedding.length > 0)) := by
  constructor
  · intro st q u limit hu hnodup sc hsc d hd hid
    have h1 : sc ∈ similarityCandidates st q (some u) :=
      List.mem_mergeSort.1 (List.take_subset _ _ hsc)
    unfold similarityCandidates at h1
    dsimp only at h1
    rw [if_pos hu] at h1
    obtain ⟨c, hc, rfl⟩ := List.mem_map.1 h1
    have hc1 := List.mem_filter.1 hc
    have hdocid : c.documentId ∈ (st.getUserDocuments u).map (·.id) := by
      simpa using hc1.2
    obtain ⟨d₀, hd₀, hd₀id⟩ := List.mem_map.1 hdocid
    unfold MemStorage.getUserDocuments MemStorage.getAllDocuments at hd₀
    dsimp only at hd₀
    rw [if_pos hu] at hd₀
    have hd₀' : d₀ ∈ st.documents.filter (fun doc => doc.userId = some u) :=
      List.mem_mergeSort.1 hd₀
    have hd₀mem := (List.mem_filter.1 hd₀').1
    have hd₀user : d₀.userId = some u := by
      have := (List.mem_filter.1 hd₀').2
      simpa using this
    have hdd : d = d₀ :=
      List.inj_on_of_nodup_map hnodup hd hd₀mem (hid.trans hd₀id.symm)
    rw [hdd, hd₀user]
  · intro st q
    unfold similarityCandidates
    rw [List.map_map]
    have hid : ((fun sc : SimChunk => sc.chunk) ∘ fun chunk =>
        ({ chunk := chunk,
           similarity := cosineSimilarity q chunk.embedding } : SimChunk)) = id := rfl
    rw [hid, List.map_id]

/-- Witness for C1 at the concrete one-owner store: a search scoped to
`"bob"` only returns chunks whose parent is bob's. -/
theorem findSimilarChunks_owner_scoping_witness :
    ∀ sc ∈ cexStoreC1.findSimilarChunks [(1 : ℝ)] (some "bob") 5,
      ∀ d ∈ cexStoreC1.documents, d.id = sc.chunk.documentId →
        d.userId = some "bob" :=
  findSimilarChunks_owner_scoping.1 cexStoreC1 [(1 : ℝ)] "bob" 5 (by decide) (by decide)

/-- Witness for C2 at the concrete store: the single searchable chunk is
returned with a non-empty embedding and the result length is within the
default limit. -/
theorem findSimilarChunks_ranking_witness :
    (∀ sc ∈ cexStoreC1.findSimilarChunks [(1 : ℝ)] none 5, sc.chunk.embedding ≠ []) ∧
    (cexStoreC1.findSimilarChunks [(1 : ℝ)] none 5).length ≤ 5 :=
  ⟨(findSimilarChunks_ranking cexStoreC1 [(1 : ℝ)] none 5).1,
    (findSimilarChunks_ranking cexStoreC1 [(1 : ℝ)] none 5).2.2.2.2.1⟩

/-! ### Id-freshness invariant of the three stores -/

lemma jsSet_fresh (idOf : α → Nat) (m : List α) (k : Nat) (v : α)
    (h : ∀ x ∈ m, idOf x ≠ k) : jsSet idOf m k v = m ++ [v] := by
  unfold jsSet
  rw [if_neg]
  intro hany
  obtain ⟨x, hx, hxk⟩ := List.any_eq_true.1 hany
  exact h x hx (by simpa using hxk)

lemma jsSet_replace_ids (idOf : α → Nat) (m : List α) (k : Nat) (v : α)
    (hv : idOf v = k) :
    (m.map (fun x => if idOf x = k then v else x)).map idOf = m.map idOf := by
  rw [List.map_map]
  apply List.map_congr_left
  intro x _
  show idOf (if idOf x = k then v else x) = idOf x
  by_cases h : idOf x = k
  · rw [if_pos h, hv, h]
  · rw [if_neg h]

lemma jsSet_ids (idOf : α → Nat) (m : List α) (k : Nat) (v : α) (hv : idOf v = k) :
    (jsSet idOf m k v).map idOf = m.map idOf ∨
      jsSet idOf m k v = m ++ [v] := by
  unfold jsSet
  by_cases h : m.any (fun x => idOf x = k)
  · rw [if_pos h]
    exact Or.inl (jsSet_replace_ids idOf m k v hv)
  · rw [if_neg h]
    exact Or.inr rfl

lemma bound_of_map_ids_eq {l l' : List α} {idOf : α → Nat} {n : Nat}
    (h : l'.map idOf = l.map idOf) (hb : ∀ x ∈ l, idOf x < n) :
    ∀ x ∈ l', idOf x < n := by
  intro x hx
  have hmem : idOf x ∈ l'.map idOf := List.mem_map_of_mem _ hx
  rw [h] at hmem
  obtain ⟨y, hy, hxy⟩ := List.mem_map.1 hmem
  rw [← hxy]
  exact hb y hy

lemma bound_append {l : List α} {idOf : α → Nat} {n : Nat} {v : α}
    (hb : ∀ x ∈ l, idOf x < n) (hv : idOf v < n) :
    ∀ x ∈ l ++ [v], idOf x < n := by
  intro x hx
  rcases List.mem_append.1 hx with hx | hx
  · exact hb x hx
  · rw [List.mem_singleton.1 hx]
    exact hv

lemma nodup_append_fresh {l : List α} {idOf : α → Nat} {n : Nat} {v : α}
    (hb : ∀ x ∈ l, idOf x < n) (hnd : (l.map idOf).Nodup) (hv : idOf v = n) :
    ((l ++ [v]).map idOf).Nodup := by
  rw [List.map_append]
  apply List.Nodup.append hnd (by simp)
  intro a ha hb'
  obtain ⟨y, hy, hya⟩ := List.mem_map.1 ha
  have : a = idOf v := by simpa using hb'
  rw [this, hv] at hya
  exact absurd (hya ▸ hb y hy) (lt_irrefl n)

lemma nodup_of_sublist_ids {l l' : List α} {idOf : α → Nat}
    (hs : List.Sublist l' l) (hnd : (l.map idOf).Nodup) : (l'.map idOf).Nodup :=
  List.Nodup.sublist (hs.map idOf) hnd

lemma bound_of_sublist {l l' : List α} {idOf : α → Nat} {n : Nat}
    (hs : List.Sublist l' l) (hb : ∀ x ∈ l, idOf x < n) : ∀ x ∈ l', idOf x < n :=
  fun x hx => hb x (hs.subset hx)

/-- State equations of `createDocument` under the id bound: the new record
is appended (never overwriting), carries the current counter as id, and
everything else is untouched (except the counter and clock). -/
lemma createDocument_state (st : MemStorage) (ins : InsertDocument)
    (hb : ∀ d ∈ st.documents, d.id < st.currentDocumentId) :
    (st.createDocument ins).2.documents = st.documents ++ [(st.createDocument ins).1] ∧
    (st.createDocument ins).1.id = st.currentDocumentId ∧
    (st.createDocument ins).2.chunks = st.chunks ∧
    (st.createDocument ins).2.chatMessages = st.chatMessages ∧
    (st.createDocument ins).2.currentDocumentId = st.currentDocumentId + 1 ∧
    (st.createDocument ins).2.currentChunkId = st.currentChunkId ∧
    (st.createDocument ins).2.currentMessageId = st.currentMessageId := by
  unfold MemStorage.createDocument
  refine ⟨?_, rfl, rfl, rfl, rfl, rfl, rfl⟩
  exact jsSet_fresh _ _ _ _ (fun x hx h => absurd (h ▸ hb x hx) (lt_irrefl _))

/-- State equations of `createChunk` under the id bound. -/
lemma createChunk_state (st : MemStorage) (ins : InsertChunk)
    (hb : ∀ c ∈ st.chunks, c.id < st.currentChunkId) :
    (st.createChunk ins).2.chunks = st.chunks ++ [(st.createChunk ins).1] ∧
    (st.createChunk ins).1.id = st.currentChunkId ∧
    (st.createChunk ins).1.documentId = ins.documentId ∧
    (st.createChunk ins).1.embedding = ins.embedding.getD [] ∧
    (st.createChunk ins).2.documents = st.documents ∧
    (st.createChunk ins).2.chatMessages = st.chatMessages ∧
    (st.createChunk ins).2.currentChunkId = st.currentChunkId + 1 ∧
    (st.createChunk ins).2.currentDocumentId = st.currentDocumentId ∧
    (st.createChunk ins).2.currentMessageId = st.currentMessageId := by
  unfold MemStorage.createChunk
  refine ⟨?_, rfl, rfl, rfl, rfl, rfl, rfl, rfl, rfl⟩
  exact jsSet_fresh _ _ _ _ (fun x hx h => absurd (h ▸ hb x hx) (lt_irrefl _))

/-- State equations of `createChatMessage` under the id bound. -/
lemma createChatMessage_state (st : MemStorage) (ins : InsertChatMessage)
    (hb : ∀ m ∈ st.chatMessages, m.id < st.currentMessageId) :
    (st.createChatMessage ins).2.chatMessages
      = st.chatMessages ++ [(st.createChatMessage ins).1] ∧
    (st.createChatMessage ins).1.id = st.currentMessageId ∧
    (st.createChatMessage ins).2.documents = st.documents ∧
    (st.createChatMessage ins).2.chunks = st.chunks ∧
    (st.createChatMessage ins).2.currentMessageId = st.currentMessageId + 1 := by
  unfold MemStorage.createChatMessage
  refine ⟨?_, rfl, rfl, rfl, rfl⟩
  exact jsSet_fresh _ _ _ _ (fun x hx h => absurd (h ▸ hb x hx) (lt_irrefl _))

lemma updateDocument_ids (st : MemStorage) (id : Nat) (updates : DocumentUpdate) :
    (st.updateDocument id updates).2.documents.map (·.id) = st.documents.map (·.id) ∧
    (st.updateDocument id updates).2.chunks = st.chunks ∧
    (st.updateDocument id updates).2.chatMessages = st.chatMessages ∧
    (st.updateDocument id updates).2.currentDocumentId = st.currentDocumentId ∧
    (st.updateDocument id updates).2.currentChunkId = st.currentChunkId ∧
    (st.updateDocument id updates).2.currentMessageId = st.currentMessageId := by
  unfold MemStorage.updateDocument
  cases hfind : st.documents.find? (fun d => d.id = id) with
  | none => exact ⟨rfl, rfl, rfl, rfl, rfl, rfl⟩
  | some d₀ =>
    dsimp only
    refine ⟨?_, rfl, rfl, rfl, rfl, rfl⟩
    have hid : (applyUpdate d₀ updates).id = id := by
      have := List.find?_some hfind
      simpa [applyUpdate] using this
    have hany : st.documents.any (fun x => x.id = id) = true :=
      List.any_eq_true.2 ⟨d₀, List.mem_of_find?_eq_some hfind,
        by simpa using List.find?_some hfind⟩
    unfold jsSet
    rw [if_pos hany]
    exact jsSet_replace_ids (·.id) st.documents id _ hid

lemma updateDocumentProgress_ids (st : MemStorage) (id : Nat) (p : Nat)
    (s : Option String) :
    (st.updateDocumentProgress id p s).2.documents.map (·.id)
        = st.documents.map (·.id) ∧
    (st.updateDocumentProgress id p s).2.chunks = st.chunks ∧
    (st.updateDocumentProgress id p s).2.chatMessages = st.chatMessages ∧
    (st.updateDocumentProgress id p s).2.currentDocumentId = st.currentDocumentId ∧
    (st.updateDocumentProgress id p s).2.currentChunkId = st.currentChunkId ∧
    (st.updateDocumentProgress id p s).2.currentMessageId = st.currentMessageId := by
  unfold MemStorage.updateDocumentProgress
  cases hfind : st.documents.find? (fun d => d.id = id) with
  | none => exact ⟨rfl, rfl, rfl, rfl, rfl, rfl⟩
  | some d₀ =>
    dsimp only
    refine ⟨?_, rfl, rfl, rfl, rfl, rfl⟩
    have hid :
        ({ d₀ with
           progress := p
           status := match s with
             | some str => if str ≠ "" then str else d₀.status
             | none => d₀.status } : Document).id = id := by
      have := List.find?_some hfind
      simpa using this
    have hany : st.documents.any (fun x => x.id = id) = true :=
      List.any_eq_true.2 ⟨d₀, List.mem_of_find?_eq_some hfind,
        by simpa using List.find?_some hfind⟩
    unfold jsSet
    rw [if_pos hany]
    exact jsSet_replace_ids (·.id) st.documents id _ hid

/-- C10.  Each store's create operation assigns the current counter as the
new record's id, strictly above every existing id in that store; the new
record is appended, never overwriting an existing one; and the
freshness/uniqueness invariant `StoreInv` holds initially and is preserved
by every state-changing operation. -/
theorem createIds_monotonic :
    StoreInv MemStorage.init ∧
    (∀ (st : MemStorage) (ins : InsertDocument), StoreInv st →
      (∀ d ∈ st.documents, d.id < (st.createDocument ins).1.id) ∧
      (st.createDocument ins).2.documents = st.documents ++ [(st.createDocument ins).1] ∧
      StoreInv (st.createDocument ins).2) ∧
    (∀ (st : MemStorage) (ins : InsertChunk), StoreInv st →
      (∀ c ∈ st.chunks, c.id < (st.createChunk ins).1.id) ∧
      (st.createChunk ins).2.chunks = st.chunks ++ [(st.createChunk ins).1] ∧
      StoreInv (st.createChunk ins).2) ∧
    (∀ (st : MemStorage) (ins : InsertChatMessage), StoreInv st →
      (∀ m ∈ st.chatMessages, m.id < (st.createChatMessage ins).1.id) ∧
      (st.createChatMessage ins).2.chatMessages
        = st.chatMessages ++ [(st.createChatMessage ins).1] ∧
      StoreInv (st.createChatMessage ins).2) ∧
    (∀ (st : MemStorage) (id : Nat) (updates : DocumentUpdate), StoreInv st →
      StoreInv (st.updateDocument id updates).2) ∧
    (∀ (st : MemStorage) (id : Nat) (p : Nat) (s : Option String), StoreInv st →
      StoreInv (st.updateDocumentProgress id p s).2) ∧
    (∀ (st : MemStorage) (id : Nat), StoreInv st →
      StoreInv (st.deleteDocument id).2) ∧
    (∀ (st : MemStorage) (documentId : Nat), StoreInv st →
      StoreInv (st.deleteChunksByDocument documentId).2) ∧
    (∀ (st : MemStorage) (userId : Option String), StoreInv st →
      StoreInv (st.clearChatMessages userId).2) := by
  refine ⟨?_, ?_, ?_, ?_, ?_, ?_, ?_, ?_, ?_⟩
  · exact ⟨by simp [MemStorage.init], by simp [MemStorage.init],
      by simp [MemStorage.init], by simp [MemStorage.init],
      by simp [MemStorage.init], by simp [MemStorage.init]⟩
  · intro st ins hinv
    obtain ⟨hb, hnd, hbc, hndc, hbm, hndm⟩ := hinv
    obtain ⟨hdocs, hid, hch, hmsg, hcnt, hcc, hcm⟩ := createDocument_state st ins hb
    refine ⟨fun d hd => hid ▸ hb d hd, hdocs, ?_⟩
    refine ⟨?_, ?_, ?_, ?_, ?_, ?_⟩
    · rw [hdocs, hcnt]
      exact bound_append (fun x hx => Nat.lt_succ_of_lt (hb x hx))
        (by rw [hid]; exact Nat.lt_succ_self _)
    · rw [hdocs]
      exact nodup_append_fresh hb hnd hid
    · rw [hch, hcc]
      exact hbc
    · rw [hch]
      exact hndc
    · rw [hmsg, hcm]
      exact hbm
    · rw [hmsg]
      exact hndm
  · intro st ins hinv
    obtain ⟨hb, hnd, hbc, hndc, hbm, hndm⟩ := hinv
    obtain ⟨hchunks, hid, -, -, hdocs, hmsg, hcnt, hcd, hcm⟩ := createChunk_state st ins hbc
    refine ⟨fun c hc => hid ▸ hbc c hc, hchunks, ?_⟩
    refine ⟨?_, ?_, ?_, ?_, ?_, ?_⟩
    · rw [hdocs, hcd]
      exact hb
    · rw [hdocs]
      exact hnd
    · rw [hchunks, hcnt]
      exact bound_append (fun x hx => Nat.lt_succ_of_lt (hbc x hx))
        (by rw [hid]; exact Nat.lt_succ_self _)
    · rw [hchunks]
      exact nodup_append_fresh hbc hndc hid
    · rw [hmsg, hcm]
      exact hbm
    · rw [hmsg]
      exact hndm
  · intro st ins hinv
    obtain ⟨hb, hnd, hbc, hndc, hbm, hndm⟩ := hinv
    obtain ⟨hmsgs, hid, hdocs, hch, hcnt⟩ := createChatMessage_state st ins hbm
    have hcd : (st.createChatMessage ins).2.currentDocumentId = st.currentDocumentId := rfl
    have hcc : (st.createChatMessage ins).2.currentChunkId = st.currentChunkId := rfl
    refine ⟨fun m hm => hid ▸ hbm m hm, hmsgs, ?_⟩
    refine ⟨?_, ?_, ?_, ?_, ?_, ?_⟩
    · rw [hdocs, hcd]
      exact hb
    · rw [hdocs]
      exact hnd
    · rw [hch, hcc]
      exact hbc
    · rw [hch]
      exact hndc
    · rw [hmsgs, hcnt]
      exact bound_append (fun x hx => Nat.lt_succ_of_lt (hbm x hx))
        (by rw [hid]; exact Nat.lt_succ_self _)
    · rw [hmsgs]
      exact nodup_append_fresh hbm hndm hid
  · intro st id updates hinv
    obtain ⟨hb, hnd, hbc, hndc, hbm, hndm⟩ := hinv
    obtain ⟨hids, hch, hmsg, hcd, hcc, hcm⟩ := updateDocument_ids st id updates
    exact ⟨hcd ▸ bound_of_map_ids_eq hids hb, hids ▸ hnd,
      hcc ▸ hch ▸ hbc, hch ▸ hndc, hcm ▸ hmsg ▸ hbm, hmsg ▸ hndm⟩
  · intro st id p s hinv
    obtain ⟨hb, hnd, hbc, hndc, hbm, hndm⟩ := hinv
    obtain ⟨hids, hch, hmsg, hcd, hcc, hcm⟩ := updateDocumentProgress_ids st id p s
    exact ⟨hcd ▸ bound_of_map_ids_eq hids hb, hids ▸ hnd,
      hcc ▸ hch ▸ hbc, hch ▸ hndc, hcm ▸ hmsg ▸ hbm, hmsg ▸ hndm⟩
  · intro st id hinv
    obtain ⟨hb, hnd, hbc, hndc, hbm, hndm⟩ := hinv
    unfold MemStorage.deleteDocument
    dsimp only
    split
    · unfold MemStorage.deleteChunksByDocument
      dsimp only
      refine ⟨?_, ?_, ?_, ?_, hbm, hndm⟩
      · exact bound_of_sublist (List.filter_sublist _) hb
      · exact nodup_of_sublist_ids (List.filter_sublist _) hnd
      · exact bound_of_sublist (List.filter_sublist _) hbc
      · exact nodup_of_sublist_ids (List.filter_sublist _) hndc
    · refine ⟨?_, ?_, hbc, hndc, hbm, hndm⟩
      · exact bound_of_sublist (List.filter_sublist _) hb
      · exact nodup_of_sublist_ids (List.filter_sublist _) hnd
  · intro st documentId hinv
    obtain ⟨hb, hnd, hbc, hndc, hbm, hndm⟩ := hinv
    unfold MemStorage.deleteChunksByDocument
    refine ⟨hb, hnd, ?_, ?_, hbm, hndm⟩
    · exact bound_of_sublist (List.filter_sublist _) hbc
    · exact nodup_of_sublist_ids (List.filter_sublist _) hndc
  · intro st userId hinv
    obtain ⟨hb, hnd, hbc, hndc, hbm, hndm⟩ := hinv
    unfold MemStorage.clearChatMessages
    rcases userId with _ | u
    · exact ⟨hb, hnd, hbc, hndc, by simp, by simp⟩
    · dsimp only
      by_cases hu : u ≠ ""
      · rw [if_pos hu]
        refine ⟨hb, hnd, hbc, hndc, ?_, ?_⟩
        · exact bound_of_sublist (List.filter_sublist _) hbm
        · exact nodup_of_sublist_ids (List.filter_sublist _) hndm
      · rw [if_neg hu]
        exact ⟨hb, hnd, hbc, hndc, by simp, by simp⟩

lemma find?_doc_append_last (docs : List Document) (d : Document) (k : Nat)
    (hk : d.id = k) (hfresh : ∀ x ∈ docs, x.id ≠ k) :
    (docs ++ [d]).find? (fun x => x.id = k) = some d := by
  induction docs with
  | nil => simp [hk]
  | cons a l ih =>
    rw [List.cons_append,
      List.find?_cons_of_neg _ (by simpa using hfresh a (List.mem_cons_self a l))]
    exact ih (fun x hx => hfresh x (List.mem_cons_of_mem a hx))

lemma jsSet_doc_append_last (docs : List Document) (d v : Document) (k : Nat)
    (hk : d.id = k) (hfresh : ∀ x ∈ docs, x.id ≠ k) :
    jsSet (·.id) (docs ++ [d]) k v = docs ++ [v] := by
  unfold jsSet
  rw [if_pos (List.any_eq_true.2 ⟨d, by simp, by simpa using hk⟩)]
  rw [List.map_append]
  congr 1
  · have h : docs.map (fun x => if x.id = k then v else x) = docs.map id :=
      List.map_congr_left (fun x hx => by rw [if_neg (hfresh x hx)]; rfl)
    rw [h, List.map_id]
  · simp [hk]

/-- The effect of `updateDocumentProgress` on a store whose document list
ends in the targeted document, all other ids being different: exactly the
last entry is rewritten. -/
lemma updateDocumentProgress_last (st : MemStorage) (docs : List Document)
    (d : Document) (k p : Nat) (s : Option String) (newStatus : String)
    (hdocs : st.documents = docs ++ [d]) (hk : d.id = k)
    (hfresh : ∀ x ∈ docs, x.id ≠ k)
    (hstatus : newStatus = (match s with
      | some str => if str ≠ "" then str else d.status
      | none => d.status)) :
    (st.updateDocumentProgress k p s).2 =
      { st with documents := docs ++ [{ d with progress := p, status := newStatus }] } := by
  unfold MemStorage.updateDocumentProgress
  rw [hdocs, find?_doc_append_last docs d k hk hfresh]
  dsimp only
  rw [jsSet_doc_append_last docs d _ k hk hfresh, hstatus]
  rfl

/-- Field-wise form of `updateDocumentProgress_last`, convenient when the
state term is an opaque application. -/
lemma updateDocumentProgress_last_fields (st : MemStorage) (docs : List Document)
    (d : Document) (k p : Nat) (s : Option String) (newStatus : String)
    (hdocs : st.documents = docs ++ [d]) (hk : d.id = k)
    (hfresh : ∀ x ∈ docs, x.id ≠ k)
    (hstatus : newStatus = (match s with
      | some str => if str ≠ "" then str else d.status
      | none => d.status)) :
    (st.updateDocumentProgress k p s).2.documents
        = docs ++ [{ d with progress := p, status := newStatus }] ∧
    (st.updateDocumentProgress k p s).2.chunks = st.chunks ∧
    (st.updateDocumentProgress k p s).2.chatMessages = st.chatMessages ∧
    (st.updateDocumentProgress k p s).2.currentChunkId = st.currentChunkId ∧
    (st.updateDocumentProgress k p s).2.currentDocumentId = st.currentDocumentId := by
  rw [updateDocumentProgress_last st docs d k p s newStatus hdocs hk hfresh hstatus]
  exact ⟨rfl, rfl, rfl, rfl, rfl⟩

/-- The effect of `updateDocument` on a store whose document list ends in
the targeted document. -/
lemma updateDocument_last (st : MemStorage) (docs : List Document)
    (d : Document) (k : Nat) (updates : DocumentUpdate)
    (hdocs : st.documents = docs ++ [d]) (hk : d.id = k)
    (hfresh : ∀ x ∈ docs, x.id ≠ k) :
    (st.updateDocument k updates).2 =
      { st with documents := docs ++ [applyUpdate d updates] } := by
  unfold MemStorage.updateDocument
  rw [hdocs, find?_doc_append_last docs d k hk hfresh]
  dsimp only
  have hk' : (applyUpdate d updates).id = k := by
    rw [← hk]
    rfl
  rw [jsSet_doc_append_last docs d _ k hk hfresh]

/-- Unrolling the chunk-persistence loop: the new chunks are appended
behind the existing ones, carry the parent document id and exactly the
embeddings computed for them, and the rest of the store is untouched. -/
lemma persistChunks_state (docId : Nat) :
    ∀ (cds : List ChunkWithEmbedding) (s : MemStorage),
      (∀ c ∈ s.chunks, c.id < s.currentChunkId) →
      ∃ news : List Chunk,
        (persistChunks docId cds s).chunks = s.chunks ++ news ∧
        news.map (fun c => c.embedding) = cds.map (fun cd => cd.embedding) ∧
        (∀ c ∈ news, c.documentId = docId) ∧
        (persistChunks docId cds s).documents = s.documents ∧
        (persistChunks docId cds s).chatMessages = s.chatMessages ∧
        (∀ c ∈ (persistChunks docId cds s).chunks,
          c.id < (persistChunks docId cds s).currentChunkId) := by
  intro cds
  induction cds with
  | nil =>
    intro s hb
    exact ⟨[], by simp [persistChunks], by simp, by simp, rfl, rfl, hb⟩
  | cons cd rest ih =>
    intro s hb
    obtain ⟨hchunks, hid, hdocid, hemb, hdocs, hmsg, hcnt, hcd, hcm⟩ :=
      createChunk_state s
        { documentId := docId, content := cd.content,
          embedding := some cd.embedding, metadata := cd.metadata } hb
    have hb' : ∀ c ∈ (s.createChunk
        { documentId := docId, content := cd.content,
          embedding := some cd.embedding, metadata := cd.metadata }).2.chunks,
        c.id < (s.createChunk
          { documentId := docId, content := cd.content,
            embedding := some cd.embedding, metadata := cd.metadata }).2.currentChunkId := by
      rw [hchunks, hcnt]
      exact bound_append (fun x hx => Nat.lt_succ_of_lt (hb x hx))
        (by rw [hid]; exact Nat.lt_succ_self _)
    obtain ⟨news, h1, h2, h3, h4, h5, h6⟩ := ih _ hb'
    have hstep : persistChunks docId (cd :: rest) s = persistChunks docId rest
        ((s.createChunk
          { documentId := docId, content := cd.content,
            embedding := some cd.embedding, metadata := cd.metadata }).2) := rfl
    refine ⟨(s.createChunk
        { documentId := docId, content := cd.content,
          embedding := some cd.embedding, metadata := cd.metadata }).1 :: news,
      ?_, ?_, ?_, ?_, ?_, ?_⟩
    · rw [hstep, h1, hchunks, List.append_assoc]
      rfl
    · rw [List.map_cons, h2, List.map_cons, hemb]
      rfl
    · intro c hc
      rcases List.mem_cons.1 hc with rfl | hc
      · exact hdocid
      · exact h3 c hc
    · rw [hstep, h4, hdocs]
    · rw [hstep, h5, hmsg]
    · rw [hstep]
      exact h6

lemma gen_embs_ok (embedder : String → Except String (List ℝ))
    (cs : List ProcessedChunk)
    (h : ∀ c ∈ cs, ∃ v, embedder c.content = .ok v ∧ v ≠ []) :
    ∀ ce ∈ generateChunkEmbeddings embedder cs, ce.embedding ≠ [] := by
  intro ce hce
  obtain ⟨c, hc, rfl⟩ := List.mem_map.1 hce
  obtain ⟨v, hv, hvne⟩ := h c hc
  rw [hv]
  exact hvne

lemma generateChunkEmbeddings_length (embedder : String → Except String (List ℝ))
    (cs : List ProcessedChunk) :
    (generateChunkEmbeddings embedder cs).length = cs.length := by
  simp [generateChunkEmbeddings]

lemma generateChunkEmbeddings_split (embedder : String → Except String (List ℝ))
    (pre post : List ProcessedChunk) (cf : ProcessedChunk) (e : String)
    (hf : embedder cf.content = .error e) :
    generateChunkEmbeddings embedder (pre ++ cf :: post)
      = generateChunkEmbeddings embedder pre
        ++ { content := cf.content, metadata := cf.metadata, embedding := [] }
          :: generateChunkEmbeddings embedder post := by
  unfold generateChunkEmbeddings
  rw [List.map_append, List.map_cons, hf]

lemma generateChunkEmbeddings_countP_ok (embedder : String → Except String (List ℝ))
    (cs : List ProcessedChunk)
    (h : ∀ c ∈ cs, ∃ v, embedder c.content = .ok v ∧ v ≠ []) :
    (generateChunkEmbeddings embedder cs).countP (fun ce => ce.embedding.isEmpty) = 0 := by
  rw [List.countP_eq_zero]
  intro ce hce
  have hne := gen_embs_ok embedder cs h ce hce
  simpa using hne

/-- The effect of the successful pipeline tail on a store whose document
list ends in the processed document: the embedded chunks are appended to
the chunk store, attributed to the document, and the document is
finalized with content, chunk count, status `completed`, progress 100. -/
lemma finishUpload_state (k : Nat) (pd : ProcessedDocument)
    (embedder : String → Except String (List ℝ)) (st : MemStorage)
    (docs : List Document) (d : Document)
    (hdocs : st.documents = docs ++ [d]) (hk : d.id = k)
    (hfresh : ∀ x ∈ docs, x.id ≠ k)
    (hb : ∀ c ∈ st.chunks, c.id < st.currentChunkId) :
    ∃ news : List Chunk,
      (finishUpload k pd embedder st).chunks = st.chunks ++ news ∧
      news.map (fun c => c.embedding)
        = (generateChunkEmbeddings embedder pd.chunks).map (fun ce => ce.embedding) ∧
      (∀ c ∈ news, c.documentId = k) ∧
      (finishUpload k pd embedder st).documents
        = docs ++ [{ d with
            content := pd.content,
            chunkCount := (generateChunkEmbeddings embedder pd.chunks).length,
            status := "completed", progress := 100 }] ∧
      (finishUpload k pd embedder st).chatMessages = st.chatMessages := by
  unfold finishUpload
  dsimp only
  rw [updateDocumentProgress_last st docs d k 50 none d.status hdocs hk hfresh rfl]
  rw [updateDocumentProgress_last _ docs { d with progress := 50, status := d.status }
    k 75 none d.status rfl hk hfresh rfl]
  obtain ⟨news, h1, h2, h3, h4, h5, h6⟩ :=
    persistChunks_state k (generateChunkEmbeddings embedder pd.chunks)
      { { st with documents := docs ++ [{ d with progress := 50, status := d.status }] } with
        documents := docs ++
          [{ { d with progress := 50, status := d.status } with
             progress := 75, status := d.status }] } hb
  refine ⟨news, ?_, h2, h3, ?_, ?_⟩
  · rw [updateDocument_last _ docs _ k _ h4 hk hfresh]
    exact h1.trans rfl
  · rw [updateDocument_last _ docs _ k _ h4 hk hfresh]
    exact rfl
  · rw [updateDocument_last _ docs _ k _ h4 hk hfresh]
    exact h5.trans rfl

/-- C5.  When the extractor+chunker collaborator throws, the upload
pipeline catches it at the top level and finishes with the document in
status `error` at progress 0; the chunk and chat stores are left exactly
as they were (zero chunks persisted, no rollback of anything), and the
previously stored documents are untouched (the final document list is the
old one plus the errored document).  The document had been created in
status `processing` at progress 0.  In this model only the extractor step
can throw: the store operations and `generateChunkEmbeddings` are total,
so the extractor case is exhaustive for pipeline-fatal failures. -/
theorem processUpload_fatal :
    ∀ (st : MemStorage) (file : UploadFile) (userId : String) (err : String)
      (embedder : String → Except String (List ℝ)),
      (∀ d ∈ st.documents, d.id < st.currentDocumentId) →
      (processUpload st file userId (.error err) embedder).2.chunks = st.chunks ∧
      (processUpload st file userId (.error err) embedder).2.chatMessages
        = st.chatMessages ∧
      (processUpload st file userId (.error err) embedder).2.documents
        = st.documents ++
          [{ (processUpload st file userId (.error err) embedder).1 with
             status := "error", progress := 0 }] ∧
      (processUpload st file userId (.error err) embedder).2.getDocument
          (processUpload st file userId (.error err) embedder).1.id
        = some { (processUpload st file userId (.error err) embedder).1 with
                 status := "error", progress := 0 } ∧
      (processUpload st file userId (.error err) embedder).1.status = "processing" ∧
      (processUpload st file userId (.error err) embedder).1.progress = 0 := by
  intro st file userId err embedder hb
  obtain ⟨hdocs0, hid0, hch0, hmsg0, hcnt0, -, -⟩ := createDocument_state st
    { name := file.originalname, originalName := file.originalname,
      mimeType := file.mimetype, size := file.size, content := "",
      chunkCount := some 0, status := some "processing", progress := some 0,
      userId := some userId } hb
  have hfresh : ∀ x ∈ st.documents, x.id ≠ (st.createDocument
      { name := file.originalname, originalName := file.originalname,
        mimeType := file.mimetype, size := file.size, content := "",
        chunkCount := some 0, status := some "processing", progress := some 0,
        userId := some userId }).1.id := by
    intro x hx h
    rw [hid0] at h
    exact absurd (h ▸ hb x hx) (lt_irrefl _)
  unfold processUpload
  dsimp only
  rw [updateDocumentProgress_last _ st.documents _ _ 25 (some "processing")
    "processing" hdocs0 rfl hfresh (by simp)]
  rw [updateDocumentProgress_last _ st.documents
    { (st.createDocument
        { name := file.originalname, originalName := file.originalname,
          mimeType := file.mimetype, size := file.size, content := "",
          chunkCount := some 0, status := some "processing", progress := some 0,
          userId := some userId }).1 with progress := 25, status := "processing" }
    _ 0 (some "error") "error" rfl rfl hfresh (by simp)]
  refine ⟨rfl, rfl, rfl, ?_, rfl, rfl⟩
  exact find?_doc_append_last st.documents _ _ rfl hfresh

/-- Witness for C5: a concrete failing upload out of the constructor
state ends at status error, progress 0, with no chunks. -/
theorem processUpload_fatal_witness :
    (processUpload MemStorage.init
        { originalname := "a.txt", mimetype := "text/plain", size := 3 } "u"
        (.error "boom") (fun _ => .ok [1])).2.chunks = [] ∧
    (processUpload MemStorage.init
        { originalname := "a.txt", mimetype := "text/plain", size := 3 } "u"
        (.error "boom") (fun _ => .ok [1])).2.getDocument
        (processUpload MemStorage.init
          { originalname := "a.txt", mimetype := "text/plain", size := 3 } "u"
          (.error "boom") (fun _ => .ok [1])).1.id
      = some { (processUpload MemStorage.init
            { originalname := "a.txt", mimetype := "text/plain", size := 3 } "u"
            (.error "boom") (fun _ => .ok [1])).1 with
            status := "error", progress := 0 } :=
  ⟨(processUpload_fatal MemStorage.init _ "u" "boom" _ (by simp [MemStorage.init])).1,
   (processUpload_fatal MemStorage.init _ "u" "boom" _ (by simp [MemStorage.init])).2.2.2.1⟩

lemma generateChunkEmbeddings_one_failure (embedder : String → Except String (List ℝ))
    (pre post : List ProcessedChunk) (cf : ProcessedChunk) (e : String)
    (hf : embedder cf.content = .error e)
    (hok : ∀ c ∈ pre ++ post, ∃ v, embedder c.content = .ok v ∧ v ≠ []) :
    (generateChunkEmbeddings embedder (pre ++ cf :: post)).countP
      (fun ce => ce.embedding.isEmpty) = 1 := by
  rw [generateChunkEmbeddings_split embedder pre post cf e hf,
    List.countP_append, List.countP_cons,
    generateChunkEmbeddings_countP_ok embedder pre
      (fun c hc => hok c (List.mem_append_left _ hc)),
    generateChunkEmbeddings_countP_ok embedder post
      (fun c hc => hok c (List.mem_append_right _ hc))]
  rfl

/-- C4.  When the embedder raises for exactly one of the N chunk texts
(and returns a non-empty vector for every other, per the embedder
contract), the pipeline does not abort: `generateChunkEmbeddings` returns
all N chunks with the failed one kept in place carrying an empty
embedding; the document finishes with status `completed`, progress 100 and
chunk count N; and exactly one of the N chunks stored for the document has
an empty embedding. -/
theorem processUpload_partial_failure :
    ∀ (st : MemStorage) (file : UploadFile) (userId : String)
      (pd : ProcessedDocument) (embedder : String → Except String (List ℝ))
      (pre post : List ProcessedChunk) (cf : ProcessedChunk) (e : String),
      pd.chunks = pre ++ cf :: post →
      embedder cf.content = .error e →
      (∀ c ∈ pre ++ post, ∃ v, embedder c.content = .ok v ∧ v ≠ []) →
      (∀ d ∈ st.documents, d.id < st.currentDocumentId) →
      (∀ c ∈ st.chunks, c.id < st.currentChunkId) →
      (∀ c ∈ st.chunks, c.documentId ≠ st.currentDocumentId) →
      (generateChunkEmbeddings embedder pd.chunks).length = pd.chunks.length ∧
      generateChunkEmbeddings embedder pd.chunks
        = generateChunkEmbeddings embedder pre
          ++ { content := cf.content, metadata := cf.metadata, embedding := [] }
            :: generateChunkEmbeddings embedder post ∧
      (processUpload st file userId (.ok pd) embedder).2.getDocument
          (processUpload st file userId (.ok pd) embedder).1.id
        = some { (processUpload st file userId (.ok pd) embedder).1 with
                 content := pd.content, chunkCount := pd.chunks.length,
                 status := "completed", progress := 100 } ∧
      ((processUpload st file userId (.ok pd) embedder).2.getChunksByDocument
          (processUpload st file userId (.ok pd) embedder).1.id).length
        = pd.chunks.length ∧
      ((processUpload st file userId (.ok pd) embedder).2.getChunksByDocument
          (processUpload st file userId (.ok pd) embedder).1.id).countP
          (fun c => c.embedding.isEmpty) = 1 := by
  intro st file userId pd embedder pre post cf e hsplit hfail hok hbdoc hbchunk hcdoc
  obtain ⟨hdocs0, hid0, hch0, hmsg0, hcnt0, hchid0, hcmid0⟩ := createDocument_state st
    { name := file.originalname, originalName := file.originalname,
      mimeType := file.mimetype, size := file.size, content := "",
      chunkCount := some 0, status := some "processing", progress := some 0,
      userId := some userId } hbdoc
  have hfresh : ∀ x ∈ st.documents, x.id ≠ (st.createDocument
      { name := file.originalname, originalName := file.originalname,
        mimeType := file.mimetype, size := file.size, content := "",
        chunkCount := some 0, status := some "processing", progress := some 0,
        userId := some userId }).1.id := by
    intro x hx h
    rw [hid0] at h
    exact absurd (h ▸ hbdoc x hx) (lt_irrefl _)
  obtain ⟨hA1, hA2, hA3, hA4, hA5⟩ := updateDocumentProgress_last_fields _
    st.documents _ _ 25 (some "processing") "processing" hdocs0 rfl hfresh (by simp)
  have hb1 : ∀ c ∈ ((st.createDocument
      { name := file.originalname, originalName := file.originalname,
        mimeType := file.mimetype, size := file.size, content := "",
        chunkCount := some 0, status := some "processing", progress := some 0,
        userId := some userId }).2.updateDocumentProgress (st.createDocument
      { name := file.originalname, originalName := file.originalname,
        mimeType := file.mimetype, size := file.size, content := "",
        chunkCount := some 0, status := some "processing", progress := some 0,
        userId := some userId }).1.id 25 (some "processing")).2.chunks,
      c.id < ((st.createDocument
      { name := file.originalname, originalName := file.originalname,
        mimeType := file.mimetype, size := file.size, content := "",
        chunkCount := some 0, status := some "processing", progress := some 0,
        userId := some userId }).2.updateDocumentProgress (st.createDocument
      { name := file.originalname, originalName := file.originalname,
        mimeType := file.mimetype, size := file.size, content := "",
        chunkCount := some 0, status := some "processing", progress := some 0,
        userId := some userId }).1.id 25 (some "processing")).2.currentChunkId := by
    rw [hA2, hA4]
    exact hbchunk
  obtain ⟨news, h1, h2, h3, h4, h5⟩ := finishUpload_state _ pd embedder _
    st.documents _ hA1 rfl hfresh hb1
  have hlen : news.length = pd.chunks.length := by
    have hl := congrArg List.length h2
    simpa [generateChunkEmbeddings_length] using hl
  refine ⟨generateChunkEmbeddings_length embedder pd.chunks, ?_, ?_, ?_, ?_⟩
  · rw [hsplit]
    exact generateChunkEmbeddings_split embedder pre post cf e hfail
  · unfold processUpload
    dsimp only
    unfold MemStorage.getDocument
    rw [h4, ← generateChunkEmbeddings_length embedder pd.chunks]
    exact find?_doc_append_last st.documents _ _ rfl hfresh
  · unfold processUpload
    dsimp only
    unfold MemStorage.getChunksByDocument
    rw [h1, hA2]
    rw [show (st.createDocument
      { name := file.originalname, originalName := file.originalname,
        mimeType := file.mimetype, size := file.size, content := "",
        chunkCount := some 0, status := some "processing", progress := some 0,
        userId := some userId }).2.chunks = st.chunks from rfl]
    rw [List.filter_append]
    have hnil : st.chunks.filter (fun c => c.documentId = (st.createDocument
        { name := file.originalname, originalName := file.originalname,
          mimeType := file.mimetype, size := file.size, content := "",
          chunkCount := some 0, status := some "processing", progress := some 0,
          userId := some userId }).1.id) = [] := by
      rw [List.filter_eq_nil_iff]
      intro c hc
      rw [hid0]
      simpa using hcdoc c hc
    have hself : news.filter (fun c => c.documentId = (st.createDocument
        { name := file.originalname, originalName := file.originalname,
          mimeType := file.mimetype, size := file.size, content := "",
          chunkCount := some 0, status := some "processing", progress := some 0,
          userId := some userId }).1.id) = news := by
      rw [List.filter_eq_self]
      intro c hc
      simpa using h3 c hc
    rw [hnil, hself, List.nil_append]
    exact hlen
  · unfold processUpload
    dsimp only
    unfold MemStorage.getChunksByDocument
    rw [h1, hA2]
    rw [show (st.createDocument
      { name := file.originalname, originalName := file.originalname,
        mimeType := file.mimetype, size := file.size, content := "",
        chunkCount := some 0, status := some "processing", progress := some 0,
        userId := some userId }).2.chunks = st.chunks from rfl]
    rw [List.filter_append]
    have hnil : st.chunks.filter (fun c => c.documentId = (st.createDocument
        { name := file.originalname, originalName := file.originalname,
          mimeType := file.mimetype, size := file.size, content := "",
          chunkCount := some 0, status := some "processing", progress := some 0,
          userId := some userId }).1.id) = [] := by
      rw [List.filter_eq_nil_iff]
      intro c hc
      rw [hid0]
      simpa using hcdoc c hc
    have hself : news.filter (fun c => c.documentId = (st.createDocument
        { name := file.originalname, originalName := file.originalname,
          mimeType := file.mimetype, size := file.size, content := "",
          chunkCount := some 0, status := some "processing", progress := some 0,
          userId := some userId }).1.id) = news := by
      rw [List.filter_eq_self]
      intro c hc
      simpa using h3 c hc
    rw [hnil, hself, List.nil_append]
    have hc1 : news.countP (fun c => c.embedding.isEmpty)
        = (news.map (fun c => c.embedding)).countP (fun emb => emb.isEmpty) :=
      (List.countP_map (fun emb : List ℝ => emb.isEmpty)
        (fun c : Chunk => c.embedding) news).symm
    rw [hc1, h2, List.countP_map]
    show (generateChunkEmbeddings embedder pd.chunks).countP
      (fun ce => ce.embedding.isEmpty) = 1
    rw [hsplit]
    exact generateChunkEmbeddings_one_failure embedder pre post cf e hfail hok

/-- Witness for C4 at a concrete two-chunk upload where the embedder
raises on the first chunk's text: exactly one stored chunk ends up with an
empty embedding. -/
theorem processUpload_partial_failure_witness :
    ((processUpload MemStorage.init
        { originalname := "a.txt", mimetype := "text/plain", size := 2 } "u"
        (.ok { content := "ab",
               chunks := [{ content := "a", metadata := none },
                          { content := "b", metadata := none }] })
        (fun t => if t = "a" then .error "boom" else .ok [1])).2.getChunksByDocument
        (processUpload MemStorage.init
          { originalname := "a.txt", mimetype := "text/plain", size := 2 } "u"
          (.ok { content := "ab",
                 chunks := [{ content := "a", metadata := none },
                            { content := "b", metadata := none }] })
          (fun t => if t = "a" then .error "boom" else .ok [1])).1.id).countP
        (fun c => c.embedding.isEmpty) = 1 :=
  (processUpload_partial_failure MemStorage.init
    { originalname := "a.txt", mimetype := "text/plain", size := 2 } "u"
    { content := "ab",
      chunks := [{ content := "a", metadata := none },
                 { content := "b", metadata := none }] }
    (fun t => if t = "a" then .error "boom" else .ok [1])
    [] [{ content := "b", metadata := none }] { content := "a", metadata := none }
    "boom" rfl (by simp) (by
      intro c hc
      simp only [List.nil_append, List.mem_singleton] at hc
      subst hc
      exact ⟨[1], by simp, by simp⟩)
    (by simp [MemStorage.init]) (by simp [MemStorage.init])
    (by simp [MemStorage.init])).2.2.2.2

/-- C7.  When the generator throws mid-stream after yielding some
fragments, the chat send handler emits the already-streamed `chunk` events
followed by a single explicit `error` event (no `sources`, no `done`, and
nothing after the error — no retry), persists no assistant message, and
the user's message persisted at the start of the request remains: the
transcript gains exactly that one user-role message, and the other stores
are untouched. -/
theorem sendChat_generator_failure :
    ∀ (st : MemStorage) (userId content : String) (q : List ℝ)
      (fragments : List String) (err : String),
      content ≠ "" →
      (∀ m ∈ st.chatMessages, m.id < st.currentMessageId) →
      (sendChat st userId content (.ok q) (.failure fragments err)).1
        = fragments.map SseEvent.chunkEv
          ++ [SseEvent.errorEv "Failed to generate response"] ∧
      (sendChat st userId content (.ok q) (.failure fragments err)).2.chatMessages
        = st.chatMessages ++
          [{ id := st.currentMessageId, content := content, role := "user",
             sources := none, userId := some userId, createdAt := st.time }] ∧
      (sendChat st userId content (.ok q) (.failure fragments err)).2.documents
        = st.documents ∧
      (sendChat st userId content (.ok q) (.failure fragments err)).2.chunks
        = st.chunks := by
  intro st userId content q fragments err hcontent hbmsg
  obtain ⟨hmsgs, hid, hdocs, hch, hcnt⟩ := createChatMessage_state st
    { content := content, role := "user", sources := none, userId := some userId }
    hbmsg
  unfold sendChat
  rw [if_neg hcontent]
  dsimp only
  refine ⟨rfl, ?_, hdocs, hch⟩
  rw [hmsgs]
  rfl

/-- Witness for C7 at a concrete store and a generator that fails after
two fragments. -/
theorem sendChat_generator_failure_witness :
    (sendChat MemStorage.init "u" "hi" (.ok [1])
        (.failure ["par", "tial"] "boom")).1
      = [SseEvent.chunkEv "par", SseEvent.chunkEv "tial",
         SseEvent.errorEv "Failed to generate response"] ∧
    (sendChat MemStorage.init "u" "hi" (.ok [1])
        (.failure ["par", "tial"] "boom")).2.chatMessages
      = [{ id := 1, content := "hi", role := "user", sources := none,
           userId := some "u", createdAt := 0 }] :=
  ⟨(sendChat_generator_failure MemStorage.init "u" "hi" [1] ["par", "tial"] "boom"
      (by simp) (by simp [MemStorage.init])).1,
    (sendChat_generator_failure MemStorage.init "u" "hi" [1] ["par", "tial"] "boom"
      (by simp) (by simp [MemStorage.init])).2.1⟩

/-- Witness for C10: the invariant holds of the constructor state, and a
concrete create out of it assigns id 1 and appends. -/
theorem createIds_monotonic_witness :
    StoreInv MemStorage.init ∧
    StoreInv (MemStorage.init.createChatMessage
      { content := "hi", role := "user", sources := none, userId := some "u" }).2 :=
  ⟨createIds_monotonic.1,
    (createIds_monotonic.2.2.2.1 MemStorage.init
      { content := "hi", role := "user", sources := none, userId := some "u" }
      createIds_monotonic.1).2.2⟩

end Lisa
